import Mathlib

/-!
Verification development for the gentle-pause repository.

Part 1: the toast notification queue (`src/hooks/use-toast.ts`).
Part 2: the translation store (`src/pages/ContactUs.tsx`).

The toast module keeps three pieces of mutable module state: the queue of
toasts (`memoryState.toasts`), the table of pending removal timeouts
(`toastTimeouts`, keyed by toast id), and the id counter (`count`).
We embed the reducer together with its side effect on the timeout table:
the `DISMISS_TOAST` branch calls `addToRemoveQueue`, which mutates the
table, so the embedded `reducer` maps a (state, timeout table, action)
triple to a new (state, timeout table) pair.  The timeout handle itself is
opaque; the table is modelled by the list of ids that currently have a
pending timeout.
-/

namespace UseToast

/-- The `TOAST_LIMIT` constant of use-toast.ts: maximum number of toasts kept. -/
def TOAST_LIMIT : Nat := 1

/-- The `TOAST_REMOVE_DELAY` constant of use-toast.ts (milliseconds). -/
def TOAST_REMOVE_DELAY : Nat := 1000000

/-- The JS `Number.MAX_SAFE_INTEGER`, the wrap bound used by `genId`. -/
def MAX_SAFE_INTEGER : Nat := 9007199254740991

/-- A `ToasterToast` record: required `id` plus the optional display fields
(`title`, `description`, `action` — opaque to the queue, modelled as
strings) and the optional `open` flag from `ToastProps`. -/
structure ToasterToast where
  id : String
  title : Option String := none
  description : Option String := none
  action : Option String := none
  «open» : Option Bool := none
  deriving DecidableEq, Repr

/-- A `Partial<ToasterToast>`: every field optional; `none` means the key
is absent from the JS object, so the spread `{...t, ...patch}` keeps the
old field. -/
structure ToastPatch where
  id : Option String := none
  title : Option String := none
  description : Option String := none
  action : Option String := none
  «open» : Option Bool := none
  deriving DecidableEq, Repr

/-- The JS object spread `{ ...t, ...p }` for a full record `t` and a
partial record `p`: a field present in `p` overrides, an absent one keeps
`t`'s value. -/
def mergeToast (t : ToasterToast) (p : ToastPatch) : ToasterToast :=
  { id := p.id.getD t.id
    title := p.title.or t.title
    description := p.description.or t.description
    action := p.action.or t.action
    «open» := p.open.or t.open }

/-- The `Action` union type of use-toast.ts. -/
inductive Action where
  | addToast (toast : ToasterToast)
  | updateToast (toast : ToastPatch)
  | dismissToast (toastId : Option String)
  | removeToast (toastId : Option String)
  deriving DecidableEq, Repr

/-- The `State` record: the list of active toasts, most recent first. -/
structure State where
  toasts : List ToasterToast
  deriving DecidableEq, Repr

/-- The initial module state `memoryState = { toasts: [] }`. -/
def initialState : State := { toasts := [] }

/-- The `toastTimeouts` table, modelled by the list of toast ids holding a
pending removal timeout. -/
abbrev TimeoutTable := List String

/-- The `addToRemoveQueue` function of use-toast.ts, restricted to its effect on the
`toastTimeouts` table: if the id already has a pending timeout nothing
happens, otherwise a timeout is scheduled and recorded under the id. -/
def addToRemoveQueue (timeouts : TimeoutTable) (toastId : String) : TimeoutTable :=
  if toastId ∈ timeouts then timeouts else toastId :: timeouts

/-- The JS test `t.id === action.toast.id` where `action.toast.id` may be
absent: comparing a string to `undefined` is `false`. -/
def patchTargets (p : ToastPatch) (t : ToasterToast) : Bool :=
  match p.id with
  | some i => t.id == i
  | none => false

/-- The JS test `t.id === toastId || toastId === undefined` in the
`DISMISS_TOAST` branch. -/
def dismissTargets (toastId : Option String) (t : ToasterToast) : Bool :=
  match toastId with
  | some i => t.id == i
  | none => true

/-- The `reducer` of use-toast.ts, embedded together with its side effect
on the `toastTimeouts` table (the `DISMISS_TOAST` branch calls
`addToRemoveQueue`; the other branches leave the table alone).  The timer
branch guard is the JS truthiness test `if (toastId)`: both `undefined` and
the empty string are falsy, so `dismiss ""` schedules removal timers for
every queued toast, while the marking test below it uses strict equality
(`t.id === toastId || toastId === undefined`) and is unaffected. -/
def reducer (state : State) (timeouts : TimeoutTable) (action : Action) :
    State × TimeoutTable :=
  match action with
  | .addToast toast =>
      ({ toasts := (toast :: state.toasts).take TOAST_LIMIT }, timeouts)
  | .updateToast patch =>
      ({ toasts := state.toasts.map fun t =>
            if patchTargets patch t then mergeToast t patch else t },
       timeouts)
  | .dismissToast toastId =>
      let timeouts' :=
        match toastId with
        | some i =>
            if i = "" then
              state.toasts.foldl (fun acc t => addToRemoveQueue acc t.id) timeouts
            else addToRemoveQueue timeouts i
        | none => state.toasts.foldl (fun acc t => addToRemoveQueue acc t.id) timeouts
      ({ toasts := state.toasts.map fun t =>
            if dismissTargets toastId t then { t with «open» := some false } else t },
       timeouts')
  | .removeToast toastId =>
      match toastId with
      | none => ({ toasts := [] }, timeouts)
      | some i => ({ toasts := state.toasts.filter fun t => t.id != i }, timeouts)

/-- The `genId` function of use-toast.ts: increment the counter, wrap at
`MAX_SAFE_INTEGER`, return the new counter and the id string. -/
def genId (count : Nat) : Nat × String :=
  let c := (count + 1) % MAX_SAFE_INTEGER
  (c, toString c)

/-- The caller-supplied props accepted by `toast` (a `ToasterToast`
without the `id`). -/
structure ToastInput where
  title : Option String := none
  description : Option String := none
  action : Option String := none
  deriving DecidableEq, Repr

/-- The `toast` function: generate a fresh id and dispatch `ADD_TOAST`
with `open: true`.  Returns the new counter, the generated id, and the
updated (state, timeout table). -/
def toastCall (props : ToastInput) (count : Nat) (state : State)
    (timeouts : TimeoutTable) : Nat × String × State × TimeoutTable :=
  let (c, id) := genId count
  let st := reducer state timeouts
    (.addToast { id := id, title := props.title, description := props.description
                 action := props.action, «open» := some true })
  (c, id, st.1, st.2)

/-- Apply a sequence of `ADD_TOAST` actions in order (oldest call first). -/
def applyAdds (state : State) (timeouts : TimeoutTable)
    (adds : List ToasterToast) : State × TimeoutTable :=
  adds.foldl (fun st t => reducer st.1 st.2 (.addToast t)) (state, timeouts)

/-- Apply an arbitrary sequence of reducer actions in order. -/
def applyActions (state : State) (timeouts : TimeoutTable)
    (actions : List Action) : State × TimeoutTable :=
  actions.foldl (fun st a => reducer st.1 st.2 a) (state, timeouts)

end UseToast

namespace TranslationStore

/-- The closed set of language codes `'en' | 'fr' | 'ar'`. -/
inductive Language where
  | en
  | fr
  | ar
  deriving DecidableEq, Repr

/-- One dictionary value: `{ en: string; fr: string; ar: string }`. -/
structure TranslationEntry where
  en : String
  fr : String
  ar : String
  deriving DecidableEq, Repr

/-- The property access `translation[language]`. -/
def getLang (e : TranslationEntry) : Language → String
  | .en => e.en
  | .fr => e.fr
  | .ar => e.ar

/-- JS `a || b` on strings: the empty string is falsy, so it yields `a`
when `a` is nonempty and `b` otherwise. -/
def jsOr (a b : String) : String := if a = "" then b else a

/-- The dictionary type, modelled as an association list with unique keys
(JS object property access is key lookup). -/
abbrev Translations := List (String × TranslationEntry)

/-- The `t` function of the `TranslationProvider` (ContactUs.tsx lines
542-549): look the key up; if absent return the key itself, otherwise
`translation[language] || translation['en'] || key`.  For a key hitting
only the `Object.prototype` chain (see `objectPrototypeKeys`) the source
skips the warning but both language accesses on the inherited value are
`undefined`, so the `||` chain returns the key as well — the return value
is faithfully the assoc-list lookup; only the warning count differs, which
`tWarnings` models separately. -/
def t (dict : Translations) (language : Language) (key : String) : String :=
  match List.lookup key dict with
  | none => key
  | some translation => jsOr (getLang translation language) (jsOr translation.en key)

/-- The property names of `Object.prototype`.  The `translations` value in
ContactUs.tsx is a plain object literal, so `translations[key]` for any of
these keys yields an inherited value (a function, or `Object.prototype`
itself for `"__proto__"`) — truthy in JS — even though no dictionary entry
with that key exists. -/
def objectPrototypeKeys : List String :=
  ["constructor", "hasOwnProperty", "isPrototypeOf", "propertyIsEnumerable",
   "toLocaleString", "toString", "valueOf", "__proto__",
   "__defineGetter__", "__defineSetter__", "__lookupGetter__", "__lookupSetter__"]

/-- The number of `console.warn` diagnostics emitted by one call of `t`.
The guard in the source is `if (!translation)` on the JS object access
`translations[key]`: it fires only when the access is falsy, i.e. when the
key is neither a dictionary entry nor an inherited `Object.prototype`
property (for the latter the access finds a truthy prototype-chain value,
the warning is skipped, and the chain
`translation[language] || translation['en'] || key` still returns the key). -/
def tWarnings (dict : Translations) (key : String) : Nat :=
  match List.lookup key dict with
  | none => if key ∈ objectPrototypeKeys then 0 else 1
  | some _ => 0

/-- The `translations` dictionary of ContactUs.tsx, transcribed entry for
entry (apostrophes written as the escape \x27). -/
def translations : Translations := [
  ("hero.title", { en := "Smart Queue Management", fr := "Gestion intelligente des files", ar := "إدارة قائمة الانتظار الذكية" }),
  ("hero.description", { en := "Manage queues efficiently and improve customer experience with our smart queue management solutions.", fr := "Gérez efficacement les files d\x27attente et améliorez l\x27expérience client grâce à nos solutions intelligentes de gestion des files d\x27attente.", ar := "قم بإدارة قوائم الانتظار بكفاءة وحسّن تجربة العملاء من خلال حلول إدارة قائمة الانتظار الذكية التي نقدمها." }),
  ("hero.getStarted", { en := "Get Started", fr := "Commencer", ar := "ابدأ" }),
  ("partnerships.title", { en := "Strategic Partnerships", fr := "Partenariats Stratégiques", ar := "شراكات استراتيجية" }),
  ("partnerships.description", { en := "We partner with leading companies to deliver comprehensive solutions.", fr := "Nous collaborons avec des entreprises de premier plan pour fournir des solutions complètes.", ar := "نتشارك مع الشركات الرائدة لتقديم حلول شاملة." }),
  ("about.title", { en := "About Us", fr := "À Propos de Nous", ar := "معلومات عنا" }),
  ("about.description", { en := "Learn more about our company, mission, and the team behind our innovative solutions.", fr := "Apprenez-en davantage sur notre entreprise, notre mission et l\x27équipe derrière nos solutions innovantes.", ar := "تعرف على المزيد حول شركتنا ورسالتنا والفريق الذي يقف وراء حلولنا المبتكرة." }),
  ("privacy.title", { en := "Privacy Policy", fr := "Politique de Confidentialité", ar := "سياسة الخصوصية" }),
  ("privacy.description", { en := "Read our privacy policy to understand how we protect your information.", fr := "Lisez notre politique de confidentialité pour comprendre comment nous protégeons vos informations.", ar := "اقرأ سياسة الخصوصية الخاصة بنا لفهم كيف نحمي معلوماتك." }),
  ("contact.title", { en := "Contact Us", fr := "Contactez-Nous", ar := "اتصل بنا" }),
  ("contact.description", { en := "Need assistance? Contact our support team for help with any questions or issues.", fr := "Besoin d\x27aide ? Contactez notre équipe de support pour toute question ou problème.", ar := "هل تحتاج إلى مساعدة؟ اتصل بفريق الدعم لدينا للحصول على مساعدة في أي أسئلة أو مشاكل." }),
  ("features.title", { en := "Key Features", fr := "Fonctionnalités Clés", ar := "الميزات الرئيسية" }),
  ("features.description", { en := "Explore the powerful features that make our queue management system stand out.", fr := "Explorez les fonctionnalités puissantes qui distinguent notre système de gestion des files d\x27attente.", ar := "اكتشف الميزات القوية التي تجعل نظام إدارة قائمة الانتظار لدينا متميزًا." }),
  ("testimonials.title", { en := "What Our Clients Say", fr := "Ce Que Disent Nos Clients", ar := "ماذا يقول عملاؤنا" }),
  ("testimonials.description", { en := "Read testimonials from our satisfied clients who have transformed their queue management.", fr := "Lisez les témoignages de nos clients satisfaits qui ont transformé leur gestion des files d\x27attente.", ar := "اقرأ شهادات عملائنا الراضين الذين قاموا بتحويل إدارة قائمة الانتظار الخاصة بهم." }),
  ("integrations.title", { en := "Seamless Integrations", fr := "Intégrations Faciles", ar := "تكاملات سلسة" }),
  ("integrations.description", { en := "Integrate our system with your existing tools for a streamlined workflow.", fr := "Intégrez notre système à vos outils existants pour un flux de travail simplifié.", ar := "ادمج نظامنا مع أدواتك الحالية للحصول على سير عمل مبسط." }),
  ("cta.title", { en := "Ready to Transform Your Queues?", fr := "Prêt à Transformer Vos Files d\x27Attente ?", ar := "هل أنت مستعد لتحويل قوائم الانتظار الخاصة بك؟" }),
  ("cta.description", { en := "Get started today and see the difference in your customer satisfaction.", fr := "Commencez dès aujourd\x27hui et constatez la différence dans la satisfaction de vos clients.", ar := "ابدأ اليوم وشاهد الفرق في رضا عملائك." }),
  ("cta.button", { en := "Request a Demo", fr := "Demander une Démo", ar := "اطلب عرضًا تجريبيًا" }),
  ("footer.copyright", { en := "© 2024 Smart Queue. All rights reserved.", fr := "© 2024 Smart Queue. Tous droits réservés.", ar := "© 2024 Smart Queue. جميع الحقوق محفوظة." }),
  ("footer.terms", { en := "Terms of Service", fr := "Conditions d\x27Utilisation", ar := "شروط الخدمة" }),
  ("footer.privacy", { en := "Privacy Policy", fr := "Politique de Confidentialité", ar := "سياسة الخصوصية" }),
  ("aboutPage.title", { en := "Our Mission", fr := "Notre Mission", ar := "مهمتنا" }),
  ("aboutPage.content", { en := "To revolutionize queue management with innovative technology.", fr := "Révolutionner la gestion des files d\x27attente grâce à une technologie innovante.", ar := "إحداث ثورة في إدارة قائمة الانتظار من خلال التكنولوجيا المبتكرة." }),
  ("privacyPage.title", { en := "Data Protection", fr := "Protection des Données", ar := "حماية البيانات" }),
  ("privacyPage.content", { en := "We are committed to protecting your data and privacy.", fr := "Nous nous engageons à protéger vos données et votre vie privée.", ar := "نحن ملتزمون بحماية بياناتك وخصوصيتك." }),
  ("contactPage.title", { en := "Get in Touch", fr := "Entrer en Contact", ar := "تواصل معنا" }),
  ("contactPage.content", { en := "Contact us for support, questions, or partnership opportunities.", fr := "Contactez-nous pour obtenir de l\x27aide, poser des questions ou discuter des opportunités de partenariat.", ar := "اتصل بنا للحصول على الدعم أو لطرح الأسئلة أو لمناقشة فرص الشراكة." }),
  ("nav.partnerships", { en := "Partnerships", fr := "Partenariats", ar := "الشراكات" }),
  ("nav.aboutUs", { en := "About Us", fr := "À propos", ar := "من نحن" }),
  ("nav.privacy", { en := "Privacy & Policy", fr := "Confidentialité", ar := "الخصوصية" }),
  ("nav.contact", { en := "Contact Us", fr := "Contact", ar := "اتصل بنا" }),
  ("nav.clientPortal", { en := "Client Portal", fr := "Espace Client", ar := "بوابة العميل" }),
  ("nav.signin", { en := "Professional Access", fr := "Accès Professionnel", ar := "دخول المحترفين" }),
  ("aboutUS.title", { en := "Our Story", fr := "Notre Histoire", ar := "قصتنا" }),
  ("aboutUS.content", { en := "Founded in 2010, we set out to solve the challenges of queue management...", fr := "Fondée en 2010, nous avons entrepris de résoudre les défis de la gestion des files d\x27attente...", ar := "تأسست في عام 2010، انطلقنا لحل تحديات إدارة قائمة الانتظار..." }),
  ("contactUS.title", { en := "Reach Out", fr := "Contactez-nous", ar := "تواصل معنا" }),
  ("contactUS.address", { en := "123 Main Street, Anytown", fr := "123 Rue Principale, Ville", ar := "123 شارع رئيسي، أي مدينة" }),
  ("privacyPOlicy.title", { en := "Our Commitment", fr := "Notre Engagement", ar := "التزامنا" }),
  ("privacyPOlicy.content", { en := "We are dedicated to protecting your personal information...", fr := "Nous nous engageons à protéger vos informations personnelles...", ar := "نحن ملتزمون بحماية معلوماتك الشخصية..." }),
  ("translationCOntext.title", { en := "Translation Context", fr := "Contexte de Traduction", ar := "سياق الترجمة" }),
  ("translationCOntext.description", { en := "Providing multi-language support for the application.", fr := "Fournir un support multilingue pour l\x27application.", ar := "توفير دعم متعدد اللغات للتطبيق." })]

/-- The context value provided by `TranslationProvider`: the current
language and the bound translation function.  (The `setLanguage` setter
mutates the provider's React state and is modelled by quantifying over
the `language` argument.) -/
structure TranslationContextType where
  language : Language
  t : String → String

/-- The context value built by `TranslationProvider` for a given current
language. -/
def providerValue (dict : Translations) (language : Language) : TranslationContextType :=
  { language := language, t := fun key => t dict language key }

/-- The `useTranslation` hook (ContactUs.tsx lines 581-587): read the context; when
no provider is in scope the context is `undefined` and the hook throws
before returning anything. -/
def useTranslation (context : Option TranslationContextType) :
    Except String TranslationContextType :=
  match context with
  | none => Except.error "useTranslation must be used within TranslationProvider"
  | some c => Except.ok c

end TranslationStore

namespace UseToast

/-- Helper: appending one more add to a sequence of adds runs the reducer once more. -/
lemma applyAdds_append (s : State) (tm : TimeoutTable) (adds : List ToasterToast)
    (x : ToasterToast) :
    applyAdds s tm (adds ++ [x]) =
      reducer (applyAdds s tm adds).1 (applyAdds s tm adds).2 (.addToast x) := by
  simp [applyAdds, List.foldl_append]

/-- Helper: after any sequence of adds from the empty state, the queue is the
reversed sequence truncated to `TOAST_LIMIT`. -/
lemma applyAdds_toasts (adds : List ToasterToast) :
    (applyAdds initialState [] adds).1.toasts = adds.reverse.take TOAST_LIMIT := by
  induction adds using List.reverseRecOn with
  | nil => rfl
  | append_singleton xs x ih =>
    rw [applyAdds_append]
    simp only [List.reverse_append, List.reverse_singleton, List.singleton_append]
    rfl

/-- C1: starting from the empty queue with capacity `TOAST_LIMIT = 1`, after any
sequence of adds the queue holds exactly the most recently added `TOAST_LIMIT`
records in most-recent-first order and its length is `min TOAST_LIMIT
(number of adds)`; in particular after `add A` then `add B` the queue is `[B]`. -/
theorem add_sequence_keeps_latest :
    (∀ adds : List ToasterToast,
        (applyAdds initialState [] adds).1.toasts = adds.reverse.take TOAST_LIMIT ∧
        (applyAdds initialState [] adds).1.toasts.length = min TOAST_LIMIT adds.length) ∧
    (∀ A B : ToasterToast, (applyAdds initialState [] [A, B]).1.toasts = [B]) := by
  constructor
  · intro adds
    refine ⟨applyAdds_toasts adds, ?_⟩
    rw [applyAdds_toasts adds]
    simp [List.length_take]
  · intro A B
    rfl

/-- Helper: one reducer step keeps the queue length within `TOAST_LIMIT`. -/
lemma reducer_capacity (s : State) (tm : TimeoutTable) (a : Action)
    (h : s.toasts.length ≤ TOAST_LIMIT) :
    ((reducer s tm a).1).toasts.length ≤ TOAST_LIMIT := by
  cases a with
  | addToast x =>
      show ((x :: s.toasts).take TOAST_LIMIT).length ≤ TOAST_LIMIT
      simp [List.length_take]
  | updateToast p =>
      show (s.toasts.map _).length ≤ TOAST_LIMIT
      simpa using h
  | dismissToast o =>
      show (s.toasts.map _).length ≤ TOAST_LIMIT
      simpa using h
  | removeToast o =>
      cases o with
      | none => show ([] : List ToasterToast).length ≤ TOAST_LIMIT; simp
      | some i =>
          show (s.toasts.filter _).length ≤ TOAST_LIMIT
          exact le_trans (List.length_filter_le _ _) h

/-- Helper: the capacity bound is preserved along any action sequence. -/
lemma applyActions_capacity (acts : List Action) (s : State) (tm : TimeoutTable)
    (h : s.toasts.length ≤ TOAST_LIMIT) :
    ((applyActions s tm acts).1).toasts.length ≤ TOAST_LIMIT := by
  induction acts generalizing s tm with
  | nil => exact h
  | cons a rest ih =>
      show ((applyActions (reducer s tm a).1 (reducer s tm a).2 rest).1).toasts.length ≤ TOAST_LIMIT
      exact ih _ _ (reducer_capacity s tm a h)

/-- C7: every state reachable from the empty initial state by any sequence of
the four reducer actions holds at most `TOAST_LIMIT = 1` records, and each
single action preserves the bound. -/
theorem capacity_invariant :
    (∀ (s : State) (tm : TimeoutTable) (a : Action),
        s.toasts.length ≤ TOAST_LIMIT →
          ((reducer s tm a).1).toasts.length ≤ TOAST_LIMIT) ∧
    (∀ acts : List Action,
        ((applyActions initialState [] acts).1).toasts.length ≤ TOAST_LIMIT) :=
  ⟨fun s tm a h => reducer_capacity s tm a h,
   fun acts => applyActions_capacity acts initialState [] (by decide)⟩

/-- C7 witness: the bound at a concrete input. -/
theorem capacity_invariant_witness :
    ((reducer initialState [] (.addToast { id := "1" })).1).toasts.length ≤ TOAST_LIMIT :=
  capacity_invariant.1 initialState [] (.addToast { id := "1" }) (by decide)

end UseToast

namespace UseToast

/-- C4 counterexample: dismissing a toast is not free of side effects — at a
concrete input the reducer leaves the queue element marked closed but also
mutates the removal-timeout table (from `[]` to `["1"]`), refuting "no effect
other than producing the new state". -/
theorem reducer_dismiss_mutates_table :
    reducer { toasts := [{ id := "1", «open» := some true }] } []
        (.dismissToast (some "1")) =
      ({ toasts := [{ id := "1", «open» := some false }] }, ["1"]) := by
  decide

/-- C4 (amended): the resulting queue state depends only on the (state,
action) pair — it is independent of the timeout table — and every branch
other than `DISMISS_TOAST` leaves the timeout table untouched; the
`DISMISS_TOAST` branch alone has the side effect of scheduling removal
timers. -/
theorem reducer_state_deterministic :
    (∀ (s : State) (tm tm' : TimeoutTable) (a : Action),
        (reducer s tm a).1 = (reducer s tm' a).1) ∧
    (∀ (s : State) (tm : TimeoutTable) (a : Action),
        (∀ o, a ≠ .dismissToast o) → (reducer s tm a).2 = tm) := by
  constructor
  · intro s tm tm' a
    cases a with
    | addToast x => rfl
    | updateToast p => rfl
    | dismissToast o => rfl
    | removeToast o => cases o <;> rfl
  · intro s tm a h
    cases a with
    | addToast x => rfl
    | updateToast p => rfl
    | dismissToast o => exact absurd rfl (h o)
    | removeToast o => cases o <;> rfl

/-- C4 witness: the no-side-effect part at a concrete non-dismiss input. -/
theorem reducer_state_deterministic_witness :
    (reducer initialState [] (.addToast { id := "1" })).2 = [] :=
  reducer_state_deterministic.2 initialState [] (.addToast { id := "1" })
    (fun _ h => Action.noConfusion h)

end UseToast

namespace UseToast

/-- C3 counterexample: dismissing an id that matches no record in the queue
is not free of observable effects — at a concrete input the queue is left
unchanged but a removal timer for the unknown id `"z"` is scheduled (the
timeout table grows from `[]` to `["z"]`). -/
theorem dismiss_unknown_id_effect :
    reducer { toasts := [{ id := "1", «open» := some true }] } []
        (.dismissToast (some "z")) =
      ({ toasts := [{ id := "1", «open» := some true }] }, ["z"]) := by
  decide

/-- C3 (amended): for an id matching no record, `UPDATE_TOAST` and
`REMOVE_TOAST` are complete no-ops (queue and timeout table unchanged),
while `DISMISS_TOAST` leaves the queue unchanged but is not effect-free:
for a nonempty unknown id it still runs `addToRemoveQueue` on that id,
scheduling a removal timer, and for the empty-string id — falsy under the
source's `if (toastId)` — it takes the dismiss-all branch and schedules
removal timers for every queued toast. -/
theorem unknown_id_noop :
    ∀ (s : State) (tm : TimeoutTable) (i : String),
      (∀ x ∈ s.toasts, x.id ≠ i) →
        (∀ p : ToastPatch, p.id = some i →
            reducer s tm (.updateToast p) = (s, tm)) ∧
        reducer s tm (.removeToast (some i)) = (s, tm) ∧
        (reducer s tm (.dismissToast (some i))).1 = s ∧
        (i ≠ "" → (reducer s tm (.dismissToast (some i))).2 = addToRemoveQueue tm i) ∧
        (i = "" → (reducer s tm (.dismissToast (some i))).2 =
            s.toasts.foldl (fun acc x => addToRemoveQueue acc x.id) tm) := by
  intro s tm i h
  refine ⟨?_, ?_, ?_, ?_, ?_⟩
  · intro p hp
    have hmap : s.toasts.map
        (fun x => if patchTargets p x then mergeToast x p else x) = s.toasts := by
      have h1 : s.toasts.map
          (fun x => if patchTargets p x then mergeToast x p else x) = s.toasts.map id :=
        List.map_congr_left fun x hx => by simp [patchTargets, hp, h x hx]
      simpa using h1
    simp only [reducer]
    rw [hmap]
  · have hf : s.toasts.filter (fun x => x.id != i) = s.toasts :=
      List.filter_eq_self.mpr fun x hx => by simpa [bne_iff_ne] using h x hx
    simp only [reducer]
    rw [hf]
  · have hmap : s.toasts.map
        (fun x => if dismissTargets (some i) x then { x with «open» := some false } else x) =
          s.toasts := by
      have h1 : s.toasts.map
          (fun x => if dismissTargets (some i) x then { x with «open» := some false } else x) =
            s.toasts.map id :=
        List.map_congr_left fun x hx => by simp [dismissTargets, h x hx]
      simpa using h1
    show State.mk _ = s
    rw [hmap]
  · intro hi
    show (if i = "" then _ else addToRemoveQueue tm i) = addToRemoveQueue tm i
    rw [if_neg hi]
  · intro hi
    show (if i = "" then s.toasts.foldl (fun acc x => addToRemoveQueue acc x.id) tm else _) =
      s.toasts.foldl (fun acc x => addToRemoveQueue acc x.id) tm
    rw [if_pos hi]

/-- C3 witness: the amended statement at a concrete input with unknown
nonempty id `"z"` — update and remove are no-ops, dismiss keeps the queue
but schedules a timer for `"z"`. -/
theorem unknown_id_noop_witness :
    reducer { toasts := [{ id := "1" }] } [] (.removeToast (some "z")) =
        ({ toasts := [{ id := "1" }] }, []) ∧
      (reducer { toasts := [{ id := "1" }] } [] (.dismissToast (some "z"))).1 =
        { toasts := [{ id := "1" }] } ∧
      (reducer { toasts := [{ id := "1" }] } [] (.dismissToast (some "z"))).2 = ["z"] := by
  have h := unknown_id_noop { toasts := [{ id := "1" }] } [] "z" (by decide)
  exact ⟨h.2.1, h.2.2.1, h.2.2.2.1 (by decide)⟩

end UseToast

namespace UseToast

/-- Helper: a merge whose patch carries id `i` produces a record with id `i`. -/
lemma mergeToast_id (x : ToasterToast) (p : ToastPatch) (i : String)
    (hp : p.id = some i) : (mergeToast x p).id = i := by
  simp [mergeToast, hp]

/-- Helper: `UPDATE_TOAST` never changes the list of record ids. -/
lemma update_preserves_ids (s : State) (tm : TimeoutTable) (p : ToastPatch) :
    ((reducer s tm (.updateToast p)).1).toasts.map ToasterToast.id =
      s.toasts.map ToasterToast.id := by
  show ((s.toasts.map fun x => if patchTargets p x then mergeToast x p else x).map
      ToasterToast.id) = s.toasts.map ToasterToast.id
  rw [List.map_map]
  refine List.map_congr_left fun x hx => ?_
  cases hp : p.id with
  | none => simp [Function.comp, patchTargets, hp]
  | some i =>
      by_cases hxi : x.id = i
      · simp [Function.comp, patchTargets, hp, hxi, mergeToast]
      · simp [Function.comp, patchTargets, hp, hxi]

/-- Helper: `DISMISS_TOAST` never changes the list of record ids. -/
lemma dismiss_preserves_ids (s : State) (tm : TimeoutTable) (o : Option String) :
    ((reducer s tm (.dismissToast o)).1).toasts.map ToasterToast.id =
      s.toasts.map ToasterToast.id := by
  show ((s.toasts.map fun x =>
      if dismissTargets o x then { x with «open» := some false } else x).map
        ToasterToast.id) = s.toasts.map ToasterToast.id
  rw [List.map_map]
  refine List.map_congr_left fun x hx => ?_
  by_cases hd : dismissTargets o x <;> simp [Function.comp, hd]

/-- Helper: scheduling a removal for an id that already has a pending timer
is a no-op on the timeout table. -/
lemma addToRemoveQueue_mem (tm : TimeoutTable) (i : String) (h : i ∈ tm) :
    addToRemoveQueue tm i = tm := by
  simp [addToRemoveQueue, h]

/-- Helper: `addToRemoveQueue` keeps the timeout table duplicate-free. -/
lemma addToRemoveQueue_nodup (tm : TimeoutTable) (i : String) (h : tm.Nodup) :
    (addToRemoveQueue tm i).Nodup := by
  by_cases hm : i ∈ tm
  · simpa [addToRemoveQueue, hm] using h
  · simp only [addToRemoveQueue, if_neg hm, List.nodup_cons]
    exact ⟨hm, h⟩

/-- Helper: scheduling removals for a whole list of toasts (the dismiss-all
timer branch) keeps the timeout table duplicate-free. -/
lemma foldl_addToRemoveQueue_nodup (l : List ToasterToast) (tm : TimeoutTable)
    (h : tm.Nodup) :
    (l.foldl (fun acc x => addToRemoveQueue acc x.id) tm).Nodup := by
  induction l generalizing tm with
  | nil => exact h
  | cons x xs ih => exact ih _ (addToRemoveQueue_nodup tm x.id h)

/-- C5 counterexample: a dismissed record does not always stay in the queue
until a `REMOVE_TOAST` for its id — after `dismiss "1"` the record is still
present (queue ids `["1"]`), but a subsequent `ADD_TOAST` evicts it by
capacity truncation with no remove ever dispatched: the queue becomes
`[record "2"]` and record `"1"` is gone. -/
theorem dismissed_record_evicted_by_add :
    ((reducer { toasts := [{ id := "1", «open» := some true }] } []
        (.dismissToast (some "1"))).1).toasts.map ToasterToast.id = ["1"] ∧
    ((reducer
        (reducer { toasts := [{ id := "1", «open» := some true }] } []
          (.dismissToast (some "1"))).1
        (reducer { toasts := [{ id := "1", «open» := some true }] } []
          (.dismissToast (some "1"))).2
        (.addToast { id := "2", «open» := some true })).1).toasts =
      [{ id := "2", «open» := some true }] := by
  constructor
  · decide
  · decide

/-- C5 (amended): after `DISMISS_TOAST id` the record with that id is still
in the queue with `open = false`; `UPDATE_TOAST` and `DISMISS_TOAST` never
delete records and `REMOVE_TOAST id` does delete the id, so the record
remains queryable until a remove for its id (or eviction by a later add, per
the counterexample); dismissing a nonempty id (every id `genId` produces is
a nonempty decimal string) whose removal timer is already pending leaves the
timeout table unchanged — the empty-string id is falsy under the source's
`if (toastId)` and takes the dismiss-all timer branch instead — and every
dismiss keeps the table duplicate-free (at most one entry per id). -/
theorem dismiss_sets_open_false :
    ∀ (s : State) (tm : TimeoutTable) (x : ToasterToast),
      x ∈ s.toasts →
        ({ x with «open» := some false } ∈
            ((reducer s tm (.dismissToast (some x.id))).1).toasts) ∧
        (∀ o : Option String,
            ((reducer s tm (.dismissToast o)).1).toasts.map ToasterToast.id =
              s.toasts.map ToasterToast.id) ∧
        (∀ p : ToastPatch,
            ((reducer s tm (.updateToast p)).1).toasts.map ToasterToast.id =
              s.toasts.map ToasterToast.id) ∧
        (x.id ∉
            ((reducer s tm (.removeToast (some x.id))).1).toasts.map ToasterToast.id) ∧
        (x.id ≠ "" → x.id ∈ tm → (reducer s tm (.dismissToast (some x.id))).2 = tm) ∧
        (∀ o : Option String,
            tm.Nodup → ((reducer s tm (.dismissToast o)).2).Nodup) := by
  intro s tm x hx
  refine ⟨?_, fun o => dismiss_preserves_ids s tm o,
    fun p => update_preserves_ids s tm p, ?_, ?_, ?_⟩
  · show { x with «open» := some false } ∈ s.toasts.map _
    refine List.mem_map.mpr ⟨x, hx, ?_⟩
    simp [dismissTargets]
  · intro hmem
    obtain ⟨y, hyf, hyid⟩ := List.mem_map.mp hmem
    have hy := List.of_mem_filter hyf
    rw [bne_iff_ne] at hy
    exact hy hyid
  · intro hne hpend
    show (if x.id = "" then _ else addToRemoveQueue tm x.id) = tm
    rw [if_neg hne]
    exact addToRemoveQueue_mem tm x.id hpend
  · intro o hnd
    cases o with
    | none => exact foldl_addToRemoveQueue_nodup s.toasts tm hnd
    | some i =>
        show (if i = "" then _ else addToRemoveQueue tm i).Nodup
        by_cases hi : i = ""
        · rw [if_pos hi]
          exact foldl_addToRemoveQueue_nodup s.toasts tm hnd
        · rw [if_neg hi]
          exact addToRemoveQueue_nodup tm i hnd

/-- C5 witness: the amended statement at a concrete input — dismissing the
single queued record `"1"` while its timer is already pending marks it
closed, keeps it in the queue, and leaves the timeout table `["1"]`
unchanged and duplicate-free. -/
theorem dismiss_sets_open_false_witness :
    ({ id := "1", «open» := some false } : ToasterToast) ∈
        ((reducer { toasts := [{ id := "1", «open» := some true }] } ["1"]
          (.dismissToast (some "1"))).1).toasts ∧
      (reducer { toasts := [{ id := "1", «open» := some true }] } ["1"]
        (.dismissToast (some "1"))).2 = ["1"] ∧
      ((reducer { toasts := [{ id := "1", «open» := some true }] } ["1"]
        (.dismissToast (some "1"))).2).Nodup := by
  have h := dismiss_sets_open_false { toasts := [{ id := "1", «open» := some true }] }
    ["1"] { id := "1", «open» := some true } (by decide)
  exact ⟨h.1, h.2.2.2.2.1 (by decide) (by decide), h.2.2.2.2.2 (some "1") (by simp)⟩

/-- C8: an `UPDATE_TOAST` whose patch carries only the target id (an empty
set of fields) leaves the whole queue and the timeout table unchanged, and
an `UPDATE_TOAST` with any patch never changes any record's id. -/
theorem update_identity_and_ids :
    (∀ (s : State) (tm : TimeoutTable) (i : String),
        reducer s tm (.updateToast { id := some i }) = (s, tm)) ∧
    (∀ (s : State) (tm : TimeoutTable) (p : ToastPatch),
        ((reducer s tm (.updateToast p)).1).toasts.map ToasterToast.id =
          s.toasts.map ToasterToast.id) := by
  constructor
  · intro s tm i
    have hmap : s.toasts.map
        (fun x => if patchTargets { id := some i } x
          then mergeToast x { id := some i } else x) = s.toasts := by
      have h1 : s.toasts.map
          (fun x => if patchTargets { id := some i } x
            then mergeToast x { id := some i } else x) = s.toasts.map id :=
        List.map_congr_left fun x hx => by
          cases x with
          | mk xid xtl xds xac xop =>
              by_cases hxi : xid = i
              · simp [patchTargets, mergeToast, hxi]
              · simp [patchTargets, hxi]
      simpa using h1
    simp only [reducer]
    rw [hmap]
  · exact fun s tm p => update_preserves_ids s tm p

end UseToast

namespace TranslationStore

/-- C2: for a key present in the dictionary, `t` returns the current
language's string; when that string is absent (JS falsy, i.e. empty) it
falls back to the primary English string, and when that is also absent it
falls back to the key; hence a key carrying only a primary-language string
resolves to that primary string under every selected language. -/
theorem fallback_chain :
    ∀ (dict : Translations) (key : String) (e : TranslationEntry) (lang : Language),
      List.lookup key dict = some e →
        (getLang e lang ≠ "" → t dict lang key = getLang e lang) ∧
        (getLang e lang = "" → e.en ≠ "" → t dict lang key = e.en) ∧
        (getLang e lang = "" → e.en = "" → t dict lang key = key) ∧
        (e.fr = "" → e.ar = "" → e.en ≠ "" → t dict lang key = e.en) := by
  intro dict key e lang h
  have ht : t dict lang key = jsOr (getLang e lang) (jsOr e.en key) := by
    simp [t, h]
  refine ⟨?_, ?_, ?_, ?_⟩
  · intro hg
    rw [ht]
    simp [jsOr, hg]
  · intro hg hen
    rw [ht]
    simp [jsOr, hg, hen]
  · intro hg hen
    rw [ht]
    simp [jsOr, hg, hen]
  · intro hfr har hen
    rw [ht]
    cases lang <;> simp [getLang, jsOr, hfr, har, hen]

/-- C2 witness: Scenario A — with the repository dictionary and current
language `fr`, `"hero.title"` resolves to the French string. -/
theorem fallback_chain_witness :
    t translations .fr "hero.title" = "Gestion intelligente des files" := by
  have h := fallback_chain translations "hero.title"
    { en := "Smart Queue Management", fr := "Gestion intelligente des files",
      ar := "إدارة قائمة الانتظار الذكية" } .fr (by decide)
  exact h.1 (by decide)

/-- C6 counterexample: the key `"constructor"` is absent from the
repository dictionary, yet the source emits no warning for it — the object
access `translations["constructor"]` finds the inherited (truthy)
`Object.prototype.constructor`, so `if (!translation)` is skipped and zero
diagnostics are emitted, refuting "exactly one diagnostic per call" for
every absent key (the key itself is still returned). -/
theorem prototype_key_no_warning :
    List.lookup "constructor" translations = none ∧
      t translations .en "constructor" = "constructor" ∧
      tWarnings translations "constructor" = 0 := by
  refine ⟨by decide, by decide, by decide⟩

/-- C6 (amended): for a key absent from the dictionary, `t` returns the key
itself; it emits exactly one warning diagnostic per call when the key is
not an inherited `Object.prototype` property name, and zero diagnostics
when it is (the object access is then truthy and the guard is skipped); in
particular the repository dictionary resolves `"nonexistent.key"` to the
literal string `"nonexistent.key"` with one warning under every language. -/
theorem missing_key_resolves_to_key :
    (∀ (dict : Translations) (lang : Language) (key : String),
        List.lookup key dict = none →
          t dict lang key = key ∧
          (key ∉ objectPrototypeKeys → tWarnings dict key = 1) ∧
          (key ∈ objectPrototypeKeys → tWarnings dict key = 0)) ∧
    (∀ lang : Language,
        t translations lang "nonexistent.key" = "nonexistent.key" ∧
          tWarnings translations "nonexistent.key" = 1) := by
  constructor
  · intro dict lang key h
    refine ⟨by simp [t, h], ?_, ?_⟩
    · intro hk
      simp [tWarnings, h, hk]
    · intro hk
      simp [tWarnings, h, hk]
  · intro lang
    have h : List.lookup "nonexistent.key" translations = none := by decide
    have hk : "nonexistent.key" ∉ objectPrototypeKeys := by decide
    exact ⟨by simp [t, h], by simp [tWarnings, h, hk]⟩

/-- C6 witness: the general statement applied to the repository dictionary
and the key `"nonexistent.key"`, which is neither a dictionary entry nor a
prototype property name. -/
theorem missing_key_resolves_to_key_witness :
    t translations .en "nonexistent.key" = "nonexistent.key" ∧
      tWarnings translations "nonexistent.key" = 1 := by
  have h := missing_key_resolves_to_key.1 translations .en "nonexistent.key" (by decide)
  exact ⟨h.1, h.2.1 (by decide)⟩

/-- C9: calling `useTranslation` with no surrounding `TranslationProvider`
(context `none`) aborts with an error and never returns a context value. -/
theorem useTranslation_fails_without_provider :
    useTranslation none =
        Except.error "useTranslation must be used within TranslationProvider" ∧
      ∀ c : TranslationContextType, useTranslation none ≠ Except.ok c :=
  ⟨rfl, fun _ h => Except.noConfusion h⟩

/-- C9 witness: the never-returns part at a concrete context value. -/
theorem useTranslation_fails_without_provider_witness :
    useTranslation none ≠ Except.ok { language := .en, t := fun s => s } :=
  useTranslation_fails_without_provider.2 { language := .en, t := fun s => s }

/-- C10: in the fallback chain an empty string counts as absent — for a key
present in the dictionary, an empty current-language string falls back to
the English string, an empty English string falls back to the key, and `t`
never returns the empty string for a nonempty key present in the
dictionary. -/
theorem empty_string_absent :
    ∀ (dict : Translations) (key : String) (e : TranslationEntry) (lang : Language),
      List.lookup key dict = some e →
        (getLang e lang = "" → e.en ≠ "" → t dict lang key = e.en) ∧
        (getLang e lang = "" → e.en = "" → t dict lang key = key) ∧
        (key ≠ "" → t dict lang key ≠ "") := by
  intro dict key e lang h
  have ht : t dict lang key = jsOr (getLang e lang) (jsOr e.en key) := by
    simp [t, h]
  refine ⟨?_, ?_, ?_⟩
  · intro hg hen
    rw [ht]
    simp [jsOr, hg, hen]
  · intro hg hen
    rw [ht]
    simp [jsOr, hg, hen]
  · intro hk
    rw [ht]
    by_cases hg : getLang e lang = "" <;> by_cases hen : e.en = "" <;>
      simp [jsOr, hg, hen, hk]

/-- C10 witness: a dictionary entry whose French string is empty resolves,
under French, to the English string and not to the empty string. -/
theorem empty_string_absent_witness :
    t [("k", { en := "x", fr := "", ar := "y" })] .fr "k" = "x" ∧
      t [("k", { en := "x", fr := "", ar := "y" })] .fr "k" ≠ "" := by
  have h := empty_string_absent [("k", { en := "x", fr := "", ar := "y" })] "k"
    { en := "x", fr := "", ar := "y" } .fr (by decide)
  exact ⟨h.1 (by decide) (by decide), h.2.2 (by decide)⟩

end TranslationStore
